import Mathlib

/-!
Verification of the boost-log attribute value visitation and extraction subsystem.

The development shallowly embeds:
* `boost/log/attributes/value_visitation.hpp` — `visitation_result` and
  `value_visitor_invoker` (the set form, the record form and the free `visit`);
* `boost/log/expressions/keyword.hpp` — `keyword_terminal`;
* `boost/log/sources/record_ostream.hpp` — `record_pump` (copy constructor and
  destructor, with the external calls recorded as an effect trace).

Collaborating repository headers that are not among the sampled sources
(`attribute_value.hpp`, `attribute_values_view.hpp`, `value_extraction.hpp`,
`fallback_policy.hpp`, `exceptions.hpp`, `record.hpp`) are modelled from the
specification; each such definition carries a doc comment saying so.

The open, template-parameterized set of attribute value types is embedded as a
closed universe of value kinds with exact dynamic type tags, as the spec's
design notes prescribe for languages without template metaprogramming.
-/

set_option autoImplicit false

namespace BoostLog

/-- Dynamic type descriptor of a stored attribute value (the closed tag set
standing in for the C++ dynamic type identification). -/
inductive TypeTag where
  | tInt
  | tString
  | tBool
  deriving DecidableEq, Repr

/-- A type-erased attribute value: one value of one concrete type. -/
inductive AttrValue where
  | vInt (n : Int)
  | vString (s : String)
  | vBool (b : Bool)
  deriving DecidableEq, Repr

/-- The dynamic type of a stored value; it never changes after construction. -/
def AttrValue.tag : AttrValue → TypeTag
  | .vInt _ => .tInt
  | .vString _ => .tString
  | .vBool _ => .tBool

/-- Attribute names (the interned identifier is represented by the string it
interns; equality of names is equality of strings). -/
abbrev attribute_name := String

/-- Modelled from the spec: `attribute_values_view.hpp` is not among the sampled
sources. §3: an ordered mapping from attribute name to value container, keys
unique; lookup by name returns the container stored under that name. -/
abbrev attribute_values_view := List (attribute_name × AttrValue)

/-- Modelled from the spec: `attribute_values_view::find` — lookup by name in
the view, returning the stored container when the name is present. -/
def find : attribute_values_view → attribute_name → Option AttrValue
  | [], _ => none
  | (k, v) :: rest, name => if k = name then some v else find rest name

/-- Modelled from the spec: `exceptions.hpp` is not among the sampled sources.
An exception carries a payload and the list of attribute names attached to it
by `attach_attribute_name_info`. -/
structure LogException (ε : Type) where
  payload : ε
  attribute_names : List attribute_name
  deriving DecidableEq, Repr

/-- Modelled from the spec: `boost::log::aux::attach_attribute_name_info(e, name)`
attaches the attribute name to the exception so diagnostics identify which
attribute was being processed. -/
def attach_attribute_name_info {ε : Type} (e : LogException ε) (name : attribute_name) :
    LogException ε :=
  { e with attribute_names := name :: e.attribute_names }

/-- Modelled from the spec: `attribute_value::visit<CandidateTypes>(visitor)`
(`attribute_value.hpp` is not among the sampled sources). §4.1: for each
candidate type in declared order, test whether the container holds it; on the
first match, invoke the visitor on the stored value and return true; if no
candidate matches, return false without invoking the visitor. The embedding
additionally returns the list of arguments the visitor was invoked on, and an
error raised by the visitor propagates out of the visit. -/
def visitValue {ε : Type} (types : List TypeTag) (v : AttrValue)
    (visitor : AttrValue → Except (LogException ε) Unit) :
    Except (LogException ε) (Bool × List AttrValue) :=
  match types with
  | [] => .ok (false, [])
  | t :: ts =>
    if v.tag = t then
      match visitor v with
      | .ok _ => .ok (true, [v])
      | .error e => .error e
    else
      visitValue ts v visitor

/-- The attribute value visitation result codes of `visitation_result`
(`value_visitation.hpp`, lines 43-81). -/
inductive visitation_result where
  | ok
  | value_not_found
  | value_has_invalid_type
  deriving DecidableEq, Repr

/-- `value_visitor_invoker<T>`: bound to one attribute name and one candidate
type set (`value_visitation.hpp`, lines 93-113). -/
structure value_visitor_invoker where
  value_types : List TypeTag
  m_Name : attribute_name

/-- Embedding of `value_visitor_invoker::operator()(attrs, visitor)`
(`value_visitation.hpp`, lines 124-145): look up the bound name in the view;
if present, run the container visit and map matched/unmatched to
`ok`/`value_has_invalid_type`; if absent, return `value_not_found`. The
try/catch wrapper attaches the bound attribute name to any exception escaping
the body and rethrows it. -/
def value_visitor_invoker.invoke {ε : Type} (inv : value_visitor_invoker)
    (attrs : attribute_values_view)
    (visitor : AttrValue → Except (LogException ε) Unit) :
    Except (LogException ε) visitation_result :=
  let body : Except (LogException ε) visitation_result :=
    match find attrs inv.m_Name with
    | some v =>
      match visitValue inv.value_types v visitor with
      | .ok (true, _) => .ok .ok
      | .ok (false, _) => .ok .value_has_invalid_type
      | .error e => .error e
    | none => .ok .value_not_found
  match body with
  | .error e => .error (attach_attribute_name_info e inv.m_Name)
  | .ok r => .ok r

/-- Modelled from the spec: `record.hpp` is not among the sampled sources. A
log record carries its attribute value set, returned by `attribute_values()`. -/
structure record where
  attribute_values : attribute_values_view

/-- Embedding of `value_visitor_invoker::operator()(rec, visitor)`
(`value_visitation.hpp`, lines 156-160): obtains the record's value set and
delegates to the set form. -/
def value_visitor_invoker.invokeRecord {ε : Type} (inv : value_visitor_invoker)
    (rec : record) (visitor : AttrValue → Except (LogException ε) Unit) :
    Except (LogException ε) visitation_result :=
  inv.invoke rec.attribute_values visitor

/-- Embedding of the free function `visit<T>(name, attrs, visitor)`
(`value_visitation.hpp`, lines 191-196): constructs `value_visitor_invoker<T>(name)`
and applies it to the view. -/
def visit {ε : Type} (types : List TypeTag) (name : attribute_name)
    (attrs : attribute_values_view)
    (visitor : AttrValue → Except (LogException ε) Unit) :
    Except (LogException ε) visitation_result :=
  let invoker : value_visitor_invoker := ⟨types, name⟩
  invoker.invoke attrs visitor

/-- Embedding of the free function `visit<T>(name, rec, visitor)`
(`value_visitation.hpp`, lines 198-203). -/
def visitRecord {ε : Type} (types : List TypeTag) (name : attribute_name)
    (rec : record) (visitor : AttrValue → Except (LogException ε) Unit) :
    Except (LogException ε) visitation_result :=
  let invoker : value_visitor_invoker := ⟨types, name⟩
  invoker.invokeRecord rec visitor

/-- State-passing embedding of `attribute_values_view::find`: the C++ method is
const, so the embedding threads the view through explicitly and returns it
alongside the lookup result. -/
def findSt : attribute_values_view → attribute_name → Option AttrValue × attribute_values_view
  | [], _ => (none, [])
  | (k, v) :: rest, name =>
    if k = name then (some v, (k, v) :: rest)
    else
      let r := findSt rest name
      (r.1, (k, v) :: r.2)

/-- State-passing embedding of `value_visitor_invoker::operator()(attrs, visitor)`:
the view is taken by const reference and only `find` and the container visit
touch it, so the embedding threads the view through those operations and
returns the view the call leaves behind. -/
def value_visitor_invoker.invokeSt {ε : Type} (inv : value_visitor_invoker)
    (attrs : attribute_values_view)
    (visitor : AttrValue → Except (LogException ε) Unit) :
    Except (LogException ε) visitation_result × attribute_values_view :=
  let r := findSt attrs inv.m_Name
  match r.1 with
  | some v =>
    (match visitValue inv.value_types v visitor with
     | .ok (true, _) => .ok .ok
     | .ok (false, _) => .ok .value_has_invalid_type
     | .error e => .error (attach_attribute_name_info e inv.m_Name), r.2)
  | none => (.ok .value_not_found, r.2)

/-- The three-state extraction outcome of §3: found-and-typed, not-found,
found-wrong-type. -/
inductive ExtractionResult where
  | found (v : AttrValue)
  | not_found
  | wrong_type
  deriving DecidableEq, Repr

/-- Modelled from the spec: `value_extraction.hpp` is not among the sampled
sources. §4.3 `extract<CandidateTypes>(name, value_set)`: look up the name —
absent gives not-found; present, run the container visit over the candidate
types — matched gives found-and-typed(value), unmatched gives found-wrong-type. -/
def extract (types : List TypeTag) (name : attribute_name)
    (attrs : attribute_values_view) : ExtractionResult :=
  match find attrs name with
  | none => .not_found
  | some v => if v.tag ∈ types then .found v else .wrong_type

/-- The typed errors raised by the to-throw fallback policy, distinguishing
absence from type mismatch and carrying the attribute name. -/
inductive extraction_error where
  | missing_value (name : attribute_name)
  | invalid_type (name : attribute_name)
  deriving DecidableEq, Repr

/-- Modelled from the spec: `fallback_policy.hpp` is not among the sampled
sources. §4.4 to-none: both failure cases map to an empty/optional result, no
error is raised. -/
def fallback_to_none : ExtractionResult → Except extraction_error (Option AttrValue)
  | .found v => .ok (some v)
  | .not_found => .ok none
  | .wrong_type => .ok none

/-- Modelled from the spec: §4.4 to-default(D): both failure cases map to the
caller-supplied default value D; success still returns the extracted value. -/
def fallback_to_default (D : AttrValue) : ExtractionResult → Except extraction_error AttrValue
  | .found v => .ok v
  | .not_found => .ok D
  | .wrong_type => .ok D

/-- Modelled from the spec: §4.4 to-throw: both failure cases raise a typed
error carrying the attribute name, distinguishing absence from wrong type. -/
def fallback_to_throw (name : attribute_name) :
    ExtractionResult → Except extraction_error AttrValue
  | .found v => .ok v
  | .not_found => .error (.missing_value name)
  | .wrong_type => .error (.invalid_type name)

/-- The keyword descriptor of `keyword.hpp`: supplies the attribute name
(`get_name()`) and the attribute value type. -/
structure keyword_descriptor where
  name : attribute_name
  value_types : List TypeTag

/-- Embedding of `keyword_terminal::operator()` (`keyword.hpp`, lines 55-77):
the extractor type is `value_extractor<value_type, fallback_to_none>`, applied
to the descriptor's name and the value set from the environment — extraction
followed by the to-none fallback policy. -/
def keyword_terminal_call (d : keyword_descriptor) (attrs : attribute_values_view) :
    Except extraction_error (Option AttrValue) :=
  fallback_to_none (extract d.value_types d.name attrs)

/-- Modelled from the spec: the value set constructor that merges the attribute
sources is not among the sampled sources. §3: the set is built by merging the
global, thread-local and record-local sources, record-local overriding
thread-local overriding global when the same name appears in more than one
source. -/
def merge_sources (globalSrc threadSrc recordSrc : List (attribute_name × AttrValue)) :
    attribute_values_view :=
  recordSrc
    ++ threadSrc.filter (fun p => (find recordSrc p.1).isNone)
    ++ globalSrc.filter (fun p => (find recordSrc p.1).isNone && (find threadSrc p.1).isNone)

/-- `record_pump<LoggerT>` state (`record_ostream.hpp`, lines 208-274): the
logger pointer and the stream compound pointer, with `none` standing for a
null pointer. Loggers and stream compounds are identified by handles. -/
structure record_pump where
  m_pLogger : Option Nat
  m_pStreamCompound : Option Nat
  deriving DecidableEq, Repr

/-- Embedding of the `record_pump` constructor (`record_ostream.hpp`, lines
241-245): stores the logger address and the freshly allocated stream compound. -/
def record_pump.construct (lg compound : Nat) : record_pump :=
  ⟨some lg, some compound⟩

/-- Embedding of the `record_pump` copy constructor (`record_ostream.hpp`,
lines 247-253), which is implemented as a move: the new pump takes the
source's pointers and the source's pointers are nulled. Returns the new pump
and the source as it is left after the copy. -/
def record_pump.copy (that : record_pump) : record_pump × record_pump :=
  (⟨that.m_pLogger, that.m_pStreamCompound⟩, ⟨none, none⟩)

/-- The externally visible calls a `record_pump` destruction performs:
which stream compounds had their record pushed to the logger via
`push_record`, and which were passed to `release_compound`. -/
structure PumpEffects where
  pushed : List Nat
  released : List Nat
  deriving DecidableEq, Repr

/-- Embedding of `~record_pump` (`record_ostream.hpp`, lines 255-263), with
`std::uncaught_exception()` as an explicit input. If the logger pointer is
null (moved-from pump) nothing happens; otherwise the `auto_release` guard
releases the stream compound, and the record is pushed to the logger first
unless an exception is propagating. -/
def record_pump.destruct (p : record_pump) (uncaught_exception : Bool) : PumpEffects :=
  match p.m_pLogger with
  | none => { pushed := [], released := [] }
  | some _ =>
    { pushed := if uncaught_exception then [] else p.m_pStreamCompound.toList,
      released := p.m_pStreamCompound.toList }

/-! Helper lemmas about the container visit and the view lookup. -/

theorem visitValue_not_mem {ε : Type} (types : List TypeTag) (v : AttrValue)
    (visitor : AttrValue → Except (LogException ε) Unit) (h : v.tag ∉ types) :
    visitValue types v visitor = .ok (false, []) := by
  induction types with
  | nil => rfl
  | cons t ts ih =>
    simp only [List.mem_cons, not_or] at h
    simp only [visitValue, if_neg h.1]
    exact ih h.2

theorem visitValue_mem_ok {ε : Type} (types : List TypeTag) (v : AttrValue)
    (visitor : AttrValue → Except (LogException ε) Unit)
    (h : v.tag ∈ types) (hv : visitor v = .ok ()) :
    visitValue types v visitor = .ok (true, [v]) := by
  induction types with
  | nil => exact absurd h (List.not_mem_nil _)
  | cons t ts ih =>
    by_cases he : v.tag = t
    · simp only [visitValue, if_pos he, hv]
    · have hts : v.tag ∈ ts := by
        rcases List.mem_cons.mp h with h1 | h1
        · exact absurd h1 he
        · exact h1
      simp only [visitValue, if_neg he]
      exact ih hts

theorem visitValue_mem_error {ε : Type} (types : List TypeTag) (v : AttrValue)
    (visitor : AttrValue → Except (LogException ε) Unit) (e : LogException ε)
    (h : v.tag ∈ types) (hv : visitor v = .error e) :
    visitValue types v visitor = .error e := by
  induction types with
  | nil => exact absurd h (List.not_mem_nil _)
  | cons t ts ih =>
    by_cases he : v.tag = t
    · simp only [visitValue, if_pos he, hv]
    · have hts : v.tag ∈ ts := by
        rcases List.mem_cons.mp h with h1 | h1
        · exact absurd h1 he
        · exact h1
      simp only [visitValue, if_neg he]
      exact ih hts

theorem findSt_spec (attrs : attribute_values_view) (name : attribute_name) :
    findSt attrs name = (find attrs name, attrs) := by
  induction attrs with
  | nil => rfl
  | cons kv rest ih =>
    obtain ⟨k, v⟩ := kv
    by_cases he : k = name
    · simp [findSt, find, he]
    · simp [findSt, find, he, ih]

theorem find_append (xs ys : attribute_values_view) (name : attribute_name) :
    find (xs ++ ys) name =
      match find xs name with
      | some v => some v
      | none => find ys name := by
  induction xs with
  | nil => rfl
  | cons kv rest ih =>
    obtain ⟨k, v⟩ := kv
    by_cases he : k = name
    · simp [find, he]
    · simp [find, he, ih]

theorem find_filter_key (xs : attribute_values_view) (q : attribute_name → Bool)
    (name : attribute_name) :
    find (xs.filter (fun p => q p.1)) name =
      if q name then find xs name else none := by
  induction xs with
  | nil => simp [find]
  | cons kv rest ih =>
    obtain ⟨k, v⟩ := kv
    by_cases hq : q k
    · by_cases he : k = name
      · subst he
        simp [List.filter_cons, hq, find]
      · simp [List.filter_cons, hq, find, he, ih]
    · by_cases he : k = name
      · subst he
        simp only [Bool.not_eq_true] at hq
        simp [List.filter_cons, hq, find, ih]
      · simp only [Bool.not_eq_true] at hq
        simp [List.filter_cons, hq, find, he, ih]

theorem find_filter_isNone (r xs : attribute_values_view) (name : attribute_name) :
    find (xs.filter (fun p => (find r p.1).isNone)) name =
      if (find r name).isNone then find xs name else none :=
  find_filter_key xs (fun a => (find r a).isNone) name

theorem find_filter_isNone2 (r t xs : attribute_values_view) (name : attribute_name) :
    find (xs.filter (fun p => (find r p.1).isNone && (find t p.1).isNone)) name =
      if (find r name).isNone && (find t name).isNone then find xs name else none :=
  find_filter_key xs (fun a => (find r a).isNone && (find t a).isNone) name

/-! The claims. -/

/-- C1: `value_visitor_invoker::operator()(attrs, visitor)` returns exactly one
of the three codes: `ok` when the bound name is found in the set and the
container's visit over the candidate types matches (the visitor, which does
not itself raise, having been applied), `value_has_invalid_type` when the name
is found but visit does not match, and `value_not_found` when the name is
absent; in each case the invocation returns a result code and raises no
exception. -/
theorem C1_invoker_trichotomy {ε : Type} (inv : value_visitor_invoker)
    (attrs : attribute_values_view)
    (visitor : AttrValue → Except (LogException ε) Unit)
    (hv : ∀ v, find attrs inv.m_Name = some v → v.tag ∈ inv.value_types →
      visitor v = .ok ()) :
    inv.invoke attrs visitor =
      .ok (match find attrs inv.m_Name with
        | none => .value_not_found
        | some v =>
          if v.tag ∈ inv.value_types then .ok else .value_has_invalid_type) := by
  cases hfind : find attrs inv.m_Name with
  | none => simp [value_visitor_invoker.invoke, hfind]
  | some v =>
    by_cases hm : v.tag ∈ inv.value_types
    · simp [value_visitor_invoker.invoke, hfind, hm,
        visitValue_mem_ok inv.value_types v visitor hm (hv v hfind hm)]
    · simp [value_visitor_invoker.invoke, hfind, hm,
        visitValue_not_mem inv.value_types v visitor hm]

/-- Witness for C1: on a set holding "Severity" as int 2, the invoker bound to
"Severity" with candidate type int returns the `ok` code. -/
theorem C1_invoker_trichotomy_witness :
    value_visitor_invoker.invoke (ε := Unit) ⟨[TypeTag.tInt], "Severity"⟩
      [("Severity", AttrValue.vInt 2)] (fun _ => .ok ()) = .ok .ok := by
  have h := C1_invoker_trichotomy (ε := Unit) ⟨[TypeTag.tInt], "Severity"⟩
    [("Severity", AttrValue.vInt 2)] (fun _ => .ok ()) (fun _ _ _ => rfl)
  rw [h]
  rfl

/-- C2: when the looked-up name is absent from the set, the invoker returns
`value_not_found` and extraction returns not-found — never
`value_has_invalid_type` — regardless of which candidate types were declared. -/
theorem C2_absent_gives_not_found {ε : Type} (inv : value_visitor_invoker)
    (attrs : attribute_values_view)
    (visitor : AttrValue → Except (LogException ε) Unit)
    (h : find attrs inv.m_Name = none) :
    inv.invoke attrs visitor = .ok .value_not_found ∧
    extract inv.value_types inv.m_Name attrs = .not_found := by
  constructor
  · unfold value_visitor_invoker.invoke
    rw [h]
  · unfold extract
    rw [h]

/-- Witness for C2: the empty set yields not-found for the name "Uptime". -/
theorem C2_absent_gives_not_found_witness :
    value_visitor_invoker.invoke (ε := Unit) ⟨[TypeTag.tInt], "Uptime"⟩ []
      (fun _ => .ok ()) = .ok .value_not_found ∧
    extract [TypeTag.tInt] "Uptime" [] = .not_found :=
  C2_absent_gives_not_found (ε := Unit) ⟨[TypeTag.tInt], "Uptime"⟩ []
    (fun _ => .ok ()) rfl

/-- C3: when the visitor raises an error on a found-and-typed value, the
invoker attaches the bound attribute name to that error and re-raises it (the
error is not suppressed), and the re-raised error names the originating
attribute; this holds for every error the visitor can raise. -/
theorem C3_visitor_error_enriched {ε : Type} (inv : value_visitor_invoker)
    (attrs : attribute_values_view)
    (visitor : AttrValue → Except (LogException ε) Unit)
    (v : AttrValue) (e : LogException ε)
    (hfind : find attrs inv.m_Name = some v)
    (hm : v.tag ∈ inv.value_types)
    (hv : visitor v = .error e) :
    inv.invoke attrs visitor = .error (attach_attribute_name_info e inv.m_Name) ∧
    inv.m_Name ∈ (attach_attribute_name_info e inv.m_Name).attribute_names := by
  constructor
  · simp [value_visitor_invoker.invoke, hfind,
      visitValue_mem_error inv.value_types v visitor e hm hv]
  · exact List.mem_cons_self _ _

/-- Witness for C3: a visitor raising a bare error on the int value stored
under "Severity" makes the invoker re-raise the error carrying "Severity". -/
theorem C3_visitor_error_enriched_witness :
    value_visitor_invoker.invoke (ε := Unit) ⟨[TypeTag.tInt], "Severity"⟩
      [("Severity", AttrValue.vInt 2)] (fun _ => .error ⟨(), []⟩) =
      .error ⟨(), ["Severity"]⟩ ∧
    "Severity" ∈ (LogException.mk () ["Severity"]).attribute_names := by
  have h := C3_visitor_error_enriched (ε := Unit) ⟨[TypeTag.tInt], "Severity"⟩
    [("Severity", AttrValue.vInt 2)] (fun _ => .error ⟨(), []⟩)
    (AttrValue.vInt 2) ⟨(), []⟩ rfl (by decide) rfl
  exact ⟨h.1, h.2⟩

/-- C4: the extraction/visitation operation leaves the value set unchanged in
every outcome: the state-passing embedding returns the view it was given, and
its result component agrees with the plain invoker. -/
theorem C4_no_mutation {ε : Type} (inv : value_visitor_invoker)
    (attrs : attribute_values_view)
    (visitor : AttrValue → Except (LogException ε) Unit) :
    (inv.invokeSt attrs visitor).2 = attrs ∧
    (inv.invokeSt attrs visitor).1 = inv.invoke attrs visitor := by
  unfold value_visitor_invoker.invokeSt value_visitor_invoker.invoke
  rw [findSt_spec]
  cases find attrs inv.m_Name with
  | none => exact ⟨rfl, rfl⟩
  | some v =>
    refine ⟨rfl, ?_⟩
    cases hvv : visitValue inv.value_types v visitor with
    | ok p =>
      obtain ⟨b, calls⟩ := p
      cases b <;> simp [hvv]
    | error e => simp [hvv]

/-- C5: the to-default fallback policy applied to a not-found or
found-wrong-type outcome yields the supplied default D, and applied to
found-and-typed(v) yields the stored v (independently of D, so never D except
by coincidence), for every D and v. -/
theorem C5_fallback_to_default_laws (D v : AttrValue) :
    fallback_to_default D .not_found = .ok D ∧
    fallback_to_default D .wrong_type = .ok D ∧
    fallback_to_default D (.found v) = .ok v :=
  ⟨rfl, rfl, rfl⟩

/-- C6: merging the global, thread-local and record-local sources resolves
every name by the precedence record-local over thread-local over global; in
particular merging global={"A":1}, thread={"A":2,"B":3}, record={"B":4} gives
lookup("A")=2 and lookup("B")=4. -/
theorem C6_merge_precedence :
    (∀ (g t r : List (attribute_name × AttrValue)) (n : attribute_name),
      find (merge_sources g t r) n =
        match find r n with
        | some v => some v
        | none =>
          match find t n with
          | some v => some v
          | none => find g n) ∧
    find (merge_sources [("A", AttrValue.vInt 1)]
      [("A", AttrValue.vInt 2), ("B", AttrValue.vInt 3)]
      [("B", AttrValue.vInt 4)]) "A" = some (AttrValue.vInt 2) ∧
    find (merge_sources [("A", AttrValue.vInt 1)]
      [("A", AttrValue.vInt 2), ("B", AttrValue.vInt 3)]
      [("B", AttrValue.vInt 4)]) "B" = some (AttrValue.vInt 4) := by
  refine ⟨?_, ?_, ?_⟩
  · intro g t r n
    unfold merge_sources
    rw [find_append, find_append, find_filter_isNone, find_filter_isNone2]
    cases hr : find r n <;> cases ht : find t n <;> simp [hr, ht]
  · rfl
  · rfl

/-- C7: the container visit over the candidate types invokes the supplied
visitor exactly once (on the stored value) when some candidate type matches,
returning true, and zero times when no candidate matches, returning false —
never more than once. -/
theorem C7_visit_invocation_count {ε : Type} (types : List TypeTag) (v : AttrValue)
    (visitor : AttrValue → Except (LogException ε) Unit)
    (hv : visitor v = .ok ()) :
    visitValue types v visitor =
      .ok (decide (v.tag ∈ types), if v.tag ∈ types then [v] else []) := by
  by_cases hm : v.tag ∈ types
  · rw [visitValue_mem_ok types v visitor hm hv]
    simp [hm]
  · rw [visitValue_not_mem types v visitor hm]
    simp [hm]

/-- Witness for C7: visiting int 5 against the candidate list [int] invokes
the visitor once and returns true; against [string] it invokes it zero times
and returns false. -/
theorem C7_visit_invocation_count_witness :
    visitValue (ε := Unit) [TypeTag.tInt] (AttrValue.vInt 5) (fun _ => .ok ()) =
      .ok (true, [AttrValue.vInt 5]) ∧
    visitValue (ε := Unit) [TypeTag.tString] (AttrValue.vInt 5) (fun _ => .ok ()) =
      .ok (false, []) := by
  have h1 := C7_visit_invocation_count (ε := Unit) [TypeTag.tInt]
    (AttrValue.vInt 5) (fun _ => .ok ()) rfl
  have h2 := C7_visit_invocation_count (ε := Unit) [TypeTag.tString]
    (AttrValue.vInt 5) (fun _ => .ok ()) rfl
  exact ⟨h1.trans rfl, h2.trans rfl⟩

/-- C8: the record form of the invoker returns the same visitation result as
the set form applied to the record's attribute value set, and the free `visit`
functions return the same result as constructing a `value_visitor_invoker`
bound to the name and applying it. -/
theorem C8_delegation {ε : Type} (inv : value_visitor_invoker) (lrec : record)
    (types : List TypeTag) (name : attribute_name)
    (attrs : attribute_values_view)
    (visitor : AttrValue → Except (LogException ε) Unit) :
    inv.invokeRecord lrec visitor = inv.invoke lrec.attribute_values visitor ∧
    visit types name attrs visitor =
      value_visitor_invoker.invoke ⟨types, name⟩ attrs visitor ∧
    visitRecord types name lrec visitor =
      value_visitor_invoker.invokeRecord ⟨types, name⟩ lrec visitor :=
  ⟨rfl, rfl, rfl⟩

/-- C9: a bare attribute keyword terminal extracts with the to-none fallback
policy: on a value set where the attribute is absent or stored with a
non-candidate type, it yields an empty optional result and raises no error. -/
theorem C9_bare_keyword_fallback_to_none (d : keyword_descriptor)
    (attrs : attribute_values_view) :
    (find attrs d.name = none → keyword_terminal_call d attrs = .ok none) ∧
    (∀ v, find attrs d.name = some v → v.tag ∉ d.value_types →
      keyword_terminal_call d attrs = .ok none) := by
  constructor
  · intro h
    simp [keyword_terminal_call, extract, h, fallback_to_none]
  · intro v h hm
    simp only [keyword_terminal_call, extract, h]
    rw [if_neg hm]
    rfl

/-- Witness for C9: the "Severity" keyword yields an empty result both on the
empty set and on a set storing "Severity" with a non-candidate type. -/
theorem C9_bare_keyword_fallback_to_none_witness :
    keyword_terminal_call ⟨"Severity", [TypeTag.tInt]⟩ [] = .ok none ∧
    keyword_terminal_call ⟨"Severity", [TypeTag.tString]⟩
      [("Severity", AttrValue.vInt 2)] = .ok none := by
  constructor
  · exact (C9_bare_keyword_fallback_to_none ⟨"Severity", [TypeTag.tInt]⟩ []).1 rfl
  · exact (C9_bare_keyword_fallback_to_none ⟨"Severity", [TypeTag.tString]⟩
      [("Severity", AttrValue.vInt 2)]).2 (AttrValue.vInt 2) rfl (by decide)

/-- C10: a record_pump whose streaming completes pushes the record exactly
once and releases the stream compound; with an exception propagating the
record is not pushed but the compound is still released; copying nulls the
source's pointers, so a moved-from pump pushes nothing and the whole chain
pushes at most once. -/
theorem C10_record_pump_push_release (lg c : Nat) (b b2 : Bool) (p : record_pump) :
    ((record_pump.construct lg c).destruct false).pushed = [c] ∧
    ((record_pump.construct lg c).destruct false).released = [c] ∧
    ((record_pump.construct lg c).destruct true).pushed = [] ∧
    ((record_pump.construct lg c).destruct true).released = [c] ∧
    (record_pump.copy p).2 = ⟨none, none⟩ ∧
    ((record_pump.copy p).2.destruct b).pushed = [] ∧
    ((record_pump.copy (record_pump.construct lg c)).1.destruct b).pushed.length +
      ((record_pump.copy (record_pump.construct lg c)).2.destruct b2).pushed.length ≤ 1 := by
  refine ⟨rfl, rfl, rfl, rfl, rfl, rfl, ?_⟩
  cases b <;> simp [record_pump.copy, record_pump.construct, record_pump.destruct]

end BoostLog
